import Mathlib

/-!
Shallow embedding of the simulation core of `src/main.rs` (a grid-based
roguelike): tiles, map generation (rooms and L-shaped tunnels), the
collision resolver (`is_blocked`, `move_by`, `player_move_or_attack`),
the explored mask maintained by `render_all`, and the entity registry.

Modelling conventions:
* machine integers (`i32`) are modelled as `Int` (no arithmetic in the
  program approaches the `i32` range);
* the mutable tile grid `Vec<Vec<Tile>>` is modelled as a total function
  `Int → Int → Tile`; each carving loop becomes the function update
  describing exactly the cells the loop writes;
* `rand::thread_rng()` is modelled as an explicit stream of raw draws
  (`List Nat`); each `gen_range(lo, hi)` call consumes one draw and maps
  it into `[lo, hi)` by reduction modulo `hi - lo`; `rand::random::<bool>()`
  and the `rand::random::<f32>() < 0.8` monster-type draw each consume one
  draw and reduce it to a `Bool`;
* indexing `objects[id]` is modelled with `List` operations; the claims
  place the in-bounds preconditions the original spec declares.
-/

namespace RustGame

/-- RGB colour triple (tcod `Color`). -/
structure Color where
  r : Nat
  g : Nat
  b : Nat
deriving DecidableEq, Repr

def WHITE : Color := ⟨255, 255, 255⟩

def DESATURATED_GREEN : Color := ⟨63, 127, 63⟩

def DARKER_GREEN : Color := ⟨0, 127, 0⟩

/-- Map tile (`struct Tile`, fields `_blocked`, `_explored`, `block_sight`). -/
structure Tile where
  _blocked : Bool
  _explored : Bool
  block_sight : Bool
deriving DecidableEq, Repr

/-- Rust `Tile::empty()`. -/
def Tile.empty : Tile := ⟨false, false, false⟩

/-- Rust `Tile::wall()`. -/
def Tile.wall : Tile := ⟨true, false, true⟩

/-- Rust `type Map = Vec<Vec<Tile>>`, modelled as a total function on coordinates. -/
abbrev Map := Int → Int → Tile

/-- Rust `struct Game { map: Map }`. -/
structure Game where
  map : Map

/-- Rust `struct Object` (fields `x`, `y`, `char`, `color`, `name`, `blocks`, `alive`). -/
structure Object where
  x : Int
  y : Int
  char : Char
  color : Color
  name : String
  blocks : Bool
  alive : Bool
deriving DecidableEq, Repr

/-- Rust `Object::new` — note it always sets `alive: false`. -/
def Object.new (x y : Int) (char : Char) (name : String) (color : Color)
    (blocks : Bool) : Object :=
  { x := x, y := y, char := char, color := color, name := name,
    blocks := blocks, alive := false }

/-- Rust `Object::pos`. -/
def Object.pos (o : Object) : Int × Int := (o.x, o.y)

/-- Rust `Object::set_pos`. -/
def Object.set_pos (o : Object) (x y : Int) : Object := { o with x := x, y := y }

/-- Rust `struct Rect` (fields `_x1`, `_x2`, `_y1`, `_y2`). -/
structure Rect where
  _x1 : Int
  _x2 : Int
  _y1 : Int
  _y2 : Int
deriving DecidableEq, Repr

instance : Inhabited Rect := ⟨⟨0, 0, 0, 0⟩⟩

/-- Rust `Rect::new(x, y, w, h)`. -/
def Rect.new (x y w h : Int) : Rect := ⟨x, x + w, y, y + h⟩

/-- Rust `Rect::center`. -/
def Rect.center (r : Rect) : Int × Int :=
  ((r._x1 + r._x2) / 2, (r._y1 + r._y2) / 2)

/-- Rust `Rect::intersects_with` — all four bounds inclusive. -/
def Rect.intersects_with (r other : Rect) : Bool :=
  decide (r._x1 ≤ other._x2) && decide (r._x2 ≥ other._x1) &&
    decide (r._y1 ≤ other._y2) && decide (r._y2 ≥ other._y1)

-- Constants from the top of `main.rs`.

def MAP_WIDTH : Int := 80

def MAP_HEIGHT : Int := 45

def PLAYER : Nat := 0

def ROOM_MAX_SIZE : Int := 10

def ROOM_MIN_SIZE : Int := 6

def MAX_ROOMS : Int := 30

def MAX_ROOM_MONSTERS : Int := 3

/-- Rust `is_blocked(x, y, map, objects)`: the tile is blocked, or some blocking
object occupies `(x, y)`. -/
def is_blocked (x y : Int) (map : Map) (objects : List Object) : Bool :=
  (map x y)._blocked ||
    objects.any (fun o => o.blocks && decide (o.pos = (x, y)))

/-- Rust `move_by(id, dx, dy, map, objects)`: move by the given amount if the
destination is not blocked.  (An out-of-range `id` panics in Rust; here the
list is returned unchanged, and every claim restricts to in-range ids.) -/
def move_by (id : Nat) (dx dy : Int) (map : Map) (objects : List Object) :
    List Object :=
  match objects[id]? with
  | some o =>
      if is_blocked (o.x + dx) (o.y + dy) map objects then objects
      else objects.set id (o.set_pos (o.x + dx) (o.y + dy))
  | none => objects

/-- Rust `player_move_or_attack(dx, dy, game, objects)`: find the first object at
the destination; if found, print the placeholder attack message naming it,
otherwise delegate to `move_by` on the player.  The printed line is returned
as the event list. -/
def player_move_or_attack (dx dy : Int) (game : Game) (objects : List Object) :
    List Object × List String :=
  match objects[PLAYER]? with
  | none => (objects, [])
  | some p =>
      match objects.findIdx? (fun o => decide (o.pos = (p.x + dx, p.y + dy))) with
      | some target_id =>
          (objects,
            ["The " ++ (((objects[target_id]?).map Object.name).getD "") ++
              " laughs at your puny efforts to attack him!"])
      | none => (move_by PLAYER dx dy game.map objects, [])

/-! ### Random source

`rand::thread_rng()` / `rand::random()` are modelled as an explicit stream
of raw draws; an exhausted stream keeps yielding `0`. -/

/-- Rust `gen_range(lo, hi)`: consume one draw and map it into `[lo, hi)`. -/
def gen_range (lo hi : Int) (rng : List Nat) : Int × List Nat :=
  (lo + (((rng.headD 0) % (hi - lo).toNat : Nat) : Int), rng.tail)

/-- Rust `rand::random::<bool>()`: consume one draw, reduce it to a `Bool`. -/
def rand_bool (rng : List Nat) : Bool × List Nat :=
  (decide ((rng.headD 0) % 2 = 1), rng.tail)

/-- Rust `rand::random::<f32>() < 0.8` (the 80% orc draw): consume one draw and
reduce it to a `Bool` with a four-in-five outcome. -/
def rand_orc (rng : List Nat) : Bool × List Nat :=
  (decide ((rng.headD 0) % 5 < 4), rng.tail)

/-! ### Map generation -/

/-- Rust `create_room`: make the interior of the rectangle (excluding its
outermost border: `x` in `x1+1..x2`, `y` in `y1+1..y2`) passable. -/
def create_room (room : Rect) (map : Map) : Map :=
  fun x y =>
    if room._x1 + 1 ≤ x ∧ x < room._x2 ∧ room._y1 + 1 ≤ y ∧ y < room._y2 then
      Tile.empty
    else map x y

/-- Rust `create_h_tunnel`: empty every cell of row `y` with `x` from
`min(x1, x2)` to `max(x1, x2)`, both inclusive. -/
def create_h_tunnel (x1 x2 y : Int) (map : Map) : Map :=
  fun a b =>
    if min x1 x2 ≤ a ∧ a ≤ max x1 x2 ∧ b = y then Tile.empty else map a b

/-- Rust `create_v_tunnel`: empty every cell of column `x` with `y` from
`min(y1, y2)` to `max(y1, y2)`, both inclusive. -/
def create_v_tunnel (y1 y2 x : Int) (map : Map) : Map :=
  fun a b =>
    if min y1 y2 ≤ b ∧ b ≤ max y1 y2 ∧ a = x then Tile.empty else map a b

/-- The monster constructed in `place_objects`: an orc or a troll, with
`alive` set to `true` right after construction. -/
def make_monster (isOrc : Bool) (x y : Int) : Object :=
  if isOrc then { Object.new x y 'O' "orc" DESATURATED_GREEN true with alive := true }
  else { Object.new x y 'T' "troll" DARKER_GREEN true with alive := true }

/-- The `for _ in 0..num_monsters` loop of `place_objects`: draw a random
in-room position; if it is not blocked, draw the monster type and push the
monster. -/
def place_loop (fuel : Nat) (room : Rect) (map : Map) (objects : List Object)
    (rng : List Nat) : List Object × List Nat :=
  match fuel with
  | 0 => (objects, rng)
  | n + 1 =>
      let gx := gen_range (room._x1 + 1) room._x2 rng
      let gy := gen_range (room._y1 + 1) room._y2 gx.2
      if is_blocked gx.1 gy.1 map objects then
        place_loop n room map objects gy.2
      else
        let gt := rand_orc gy.2
        place_loop n room map (objects ++ [make_monster gt.1 gx.1 gy.1]) gt.2

/-- Rust `place_objects`: draw the number of monsters from
`[0, MAX_ROOM_MONSTERS]` and run the placement loop. -/
def place_objects (room : Rect) (map : Map) (objects : List Object)
    (rng : List Nat) : List Object × List Nat :=
  let gn := gen_range 0 (MAX_ROOM_MONSTERS + 1) rng
  place_loop gn.1.toNat room map objects gn.2

/-- Lines 203–210 of `make_map`: sample `w`, `h` from
`[ROOM_MIN_SIZE, ROOM_MAX_SIZE + 1)` and the top-left corner so the room
fits in the grid, and build the candidate `Rect`. -/
def make_room_candidate (rng : List Nat) : Rect × List Nat :=
  let gw := gen_range ROOM_MIN_SIZE (ROOM_MAX_SIZE + 1) rng
  let gh := gen_range ROOM_MIN_SIZE (ROOM_MAX_SIZE + 1) gw.2
  let gx := gen_range 0 (MAP_WIDTH - gw.1) gh.2
  let gy := gen_range 0 (MAP_HEIGHT - gh.1) gx.2
  (Rect.new gx.1 gy.1 gw.1 gh.1, gy.2)

/-- Rust `objects[PLAYER].set_pos(x, y)` with `PLAYER = 0` (panics on an empty
vector in Rust; the empty case is never reached from `main`). -/
def set_player_position (objects : List Object) (x y : Int) : List Object :=
  match objects with
  | [] => []
  | o :: rest => o.set_pos x y :: rest

/-- The mutable state threaded through `make_map`'s room loop. -/
structure GenState where
  map : Map
  rooms : List Rect
  objects : List Object
  rng : List Nat

/-- One iteration of `make_map`'s `for _ in 0..MAX_ROOMS` loop: sample a
candidate, reject it if it intersects an accepted room, otherwise carve it,
place monsters, position the player (first room) or carve an L-shaped
tunnel from the previous room's center (later rooms), and append it. -/
def make_map_step (s : GenState) : GenState :=
  let c := make_room_candidate s.rng
  let new_room := c.1
  let failed := s.rooms.any (fun other_room => new_room.intersects_with other_room)
  if failed then { s with rng := c.2 }
  else
    let map1 := create_room new_room s.map
    let po := place_objects new_room map1 s.objects c.2
    let cen := new_room.center
    if s.rooms.isEmpty then
      { map := map1, rooms := s.rooms ++ [new_room],
        objects := set_player_position po.1 cen.1 cen.2, rng := po.2 }
    else
      let prev := (s.rooms.getLastD default).center
      let cb := rand_bool po.2
      let map2 :=
        if cb.1 then
          create_v_tunnel prev.2 cen.2 cen.1 (create_h_tunnel prev.1 cen.1 prev.2 map1)
        else
          create_h_tunnel prev.1 cen.1 cen.2 (create_v_tunnel prev.2 cen.2 prev.1 map1)
      { map := map2, rooms := s.rooms ++ [new_room], objects := po.1, rng := cb.2 }

/-- Rust `make_map`'s loop, by remaining iteration count. -/
def make_map_loop : Nat → GenState → GenState
  | 0, s => s
  | n + 1, s => make_map_loop n (make_map_step s)

/-- Rust `make_map`: start from the all-wall grid and run `MAX_ROOMS` attempts. -/
def make_map (rng : List Nat) (objects : List Object) : GenState :=
  make_map_loop MAX_ROOMS.toNat
    { map := fun _ _ => Tile.wall, rooms := [], objects := objects, rng := rng }

/-- The player object created in `main`. -/
def player : Object := Object.new 0 0 '@' "player" WHITE true

/-- The object list `main` passes to `make_map`: just the player. -/
def initial_objects : List Object := [player]

/-! ### Visibility / explored mask -/

/-- The per-tile pass of `render_all`: for every in-bounds cell that the
visibility oracle reports visible, set its `_explored` flag. -/
def explore_tiles (vis : Int → Int → Bool) (m : Map) : Map :=
  fun x y =>
    if (0 ≤ x ∧ x < MAP_WIDTH ∧ 0 ≤ y ∧ y < MAP_HEIGHT) ∧ vis x y = true then
      { m x y with _explored := true }
    else m x y

/-- A whole session's visibility passes, applied in order. -/
def explore_session (passes : List (Int → Int → Bool)) (m : Map) : Map :=
  passes.foldl (fun acc v => explore_tiles v acc) m

/-! ### Derived notions used to state the generation claims -/

/-- The integers `lo, lo+1, …, hi-1`. -/
def intRange (lo hi : Int) : List Int :=
  (List.range (hi - lo).toNat).map (fun (i : Nat) => lo + (i : Int))

/-- Cells of the horizontal tunnel `create_h_tunnel x1 x2 y` writes. -/
def hCells (x1 x2 y : Int) : List (Int × Int) :=
  (intRange (min x1 x2) (max x1 x2 + 1)).map (fun a => (a, y))

/-- Cells of the vertical tunnel `create_v_tunnel y1 y2 x` writes. -/
def vCells (y1 y2 x : Int) : List (Int × Int) :=
  (intRange (min y1 y2) (max y1 y2 + 1)).map (fun b => (x, b))

/-- The cells of the L-shaped tunnel carved between centers `p` and `q`,
for each of the two orientations the coin flip chooses (`true` = horizontal
then vertical, as in the code). -/
def LPathCells (o : Bool) (p q : Int × Int) : List (Int × Int) :=
  if o then hCells p.1 q.1 p.2 ++ vCells p.2 q.2 q.1
  else vCells p.2 q.2 p.1 ++ hCells p.1 q.1 q.2

/-- Both tiles of an L-shaped tunnel between the centers of `a` and `b`
(for one of the two orientations) are carved: not blocked and not
sight-blocking. -/
def pathClear (m : Map) (a b : Rect) : Prop :=
  ∃ o : Bool, ∀ c ∈ LPathCells o a.center b.center,
    (m c.1 c.2)._blocked = false ∧ (m c.1 c.2).block_sight = false

/-- Consecutive accepted rooms are tunnel-connected: for every index `i`,
the rooms at positions `i` and `i + 1` of the accepted list satisfy
`pathClear`. -/
def tunnelsOk (m : Map) (rooms : List Rect) : Prop :=
  ∀ (i : Nat) (h : i + 1 < rooms.length),
    pathClear m (rooms.get ⟨i, Nat.lt_of_succ_lt h⟩) (rooms.get ⟨i + 1, h⟩)

/-- The map `m'` differs from `m` only by cells overwritten with
`Tile.empty` (every write during generation writes `Tile.empty`). -/
def mapLE (m m' : Map) : Prop :=
  ∀ x y, m' x y = m x y ∨ m' x y = Tile.empty

/-- The accepted-room bounds established by the candidate sampler. -/
def RectInGrid (r : Rect) : Prop :=
  0 ≤ r._x1 ∧ r._x1 + ROOM_MIN_SIZE ≤ r._x2 ∧ r._x2 ≤ r._x1 + ROOM_MAX_SIZE ∧
    r._x2 ≤ MAP_WIDTH - 1 ∧
  0 ≤ r._y1 ∧ r._y1 + ROOM_MIN_SIZE ≤ r._y2 ∧ r._y2 ≤ r._y1 + ROOM_MAX_SIZE ∧
    r._y2 ≤ MAP_HEIGHT - 1

-- Witness data: a concrete player and maps.

def wPlayer : Object := Object.new 0 0 '@' "player" WHITE true

/-- Draws accepting two disjoint rooms `Rect(0,0,6,6)` and `Rect(20,0,6,6)`
with no monsters, tunnelling between them with the horizontal-first
orientation; every later attempt resamples `Rect(0,0,6,6)` (the exhausted
stream yields zeros), which intersects the first room and is rejected. -/
def wDraws : List Nat := [0, 0, 0, 0, 0, 0, 0, 20, 0, 0, 1]

/-- Draws accepting one room `Rect(0,0,6,6)` containing a single orc at
`(1, 1)`; all later attempts are rejected. -/
def wDrawsOrc : List Nat := [0, 0, 0, 0, 1, 0, 0, 0]

/-- A visibility oracle that reports every cell visible. -/
def visAll : Int → Int → Bool := fun _ _ => true

/-- A map whose every tile is already explored. -/
def wSeenMap : Map := fun _ _ => ⟨false, true, false⟩

def wEmptyMap : Map := fun _ _ => Tile.empty

def wWallMap : Map := fun _ _ => Tile.wall

/-! ### Helper lemmas -/

theorem gen_range_bounds (lo hi : Int) (rng : List Nat) (h : lo < hi) :
    lo ≤ (gen_range lo hi rng).1 ∧ (gen_range lo hi rng).1 < hi := by
  unfold gen_range
  simp only
  have hk : 0 < (hi - lo).toNat := by omega
  have hlt := Nat.mod_lt (rng.headD 0) hk
  omega

theorem intersects_with_true_iff (a b : Rect) :
    a.intersects_with b = true ↔
      (a._x1 ≤ b._x2 ∧ b._x1 ≤ a._x2 ∧ a._y1 ≤ b._y2 ∧ b._y1 ≤ a._y2) := by
  unfold Rect.intersects_with
  simp [ge_iff_le, and_assoc]

theorem intersects_with_comm (a b : Rect) :
    a.intersects_with b = b.intersects_with a := by
  cases ha : a.intersects_with b
  · cases hb : b.intersects_with a
    · rfl
    · have h1 := (intersects_with_true_iff b a).mp hb
      have h2 : a.intersects_with b = true :=
        (intersects_with_true_iff a b).mpr (by tauto)
      simp [ha] at h2
  · cases hb : b.intersects_with a
    · have h1 := (intersects_with_true_iff a b).mp ha
      have h2 : b.intersects_with a = true :=
        (intersects_with_true_iff b a).mpr (by tauto)
      simp [hb] at h2
    · rfl

theorem mem_intRange {a lo hi : Int} : a ∈ intRange lo hi ↔ lo ≤ a ∧ a < hi := by
  unfold intRange
  constructor
  · intro h
    obtain ⟨i, hi', hh⟩ := List.mem_map.mp h
    rw [List.mem_range] at hi'
    omega
  · intro h
    exact List.mem_map.mpr
      ⟨(a - lo).toNat, List.mem_range.mpr (by omega), by omega⟩

theorem mem_hCells {c : Int × Int} {x1 x2 y : Int} :
    c ∈ hCells x1 x2 y ↔ (min x1 x2 ≤ c.1 ∧ c.1 ≤ max x1 x2 ∧ c.2 = y) := by
  unfold hCells
  constructor
  · intro h
    obtain ⟨a, ha, hh⟩ := List.mem_map.mp h
    rw [mem_intRange] at ha
    cases hh
    exact ⟨by omega, by omega, rfl⟩
  · rintro ⟨h1, h2, h3⟩
    refine List.mem_map.mpr ⟨c.1, mem_intRange.mpr ⟨h1, by omega⟩, ?_⟩
    rw [← h3]

theorem mem_vCells {c : Int × Int} {y1 y2 x : Int} :
    c ∈ vCells y1 y2 x ↔ (min y1 y2 ≤ c.2 ∧ c.2 ≤ max y1 y2 ∧ c.1 = x) := by
  unfold vCells
  constructor
  · intro h
    obtain ⟨b, hb, hh⟩ := List.mem_map.mp h
    rw [mem_intRange] at hb
    cases hh
    exact ⟨by omega, by omega, rfl⟩
  · rintro ⟨h1, h2, h3⟩
    refine List.mem_map.mpr ⟨c.2, mem_intRange.mpr ⟨h1, by omega⟩, ?_⟩
    rw [← h3]

theorem create_h_tunnel_sets {x1 x2 y : Int} (m : Map) {c : Int × Int}
    (hc : c ∈ hCells x1 x2 y) : create_h_tunnel x1 x2 y m c.1 c.2 = Tile.empty := by
  rw [mem_hCells] at hc
  unfold create_h_tunnel
  rw [if_pos ⟨hc.1, hc.2.1, hc.2.2⟩]

theorem create_v_tunnel_sets {y1 y2 x : Int} (m : Map) {c : Int × Int}
    (hc : c ∈ vCells y1 y2 x) : create_v_tunnel y1 y2 x m c.1 c.2 = Tile.empty := by
  rw [mem_vCells] at hc
  unfold create_v_tunnel
  rw [if_pos ⟨hc.1, hc.2.1, hc.2.2⟩]

theorem mapLE_create_room (r : Rect) (m : Map) : mapLE m (create_room r m) := by
  intro x y
  unfold create_room
  split
  · right; rfl
  · left; rfl

theorem mapLE_create_h_tunnel (x1 x2 y : Int) (m : Map) :
    mapLE m (create_h_tunnel x1 x2 y m) := by
  intro a b
  unfold create_h_tunnel
  split
  · right; rfl
  · left; rfl

theorem mapLE_create_v_tunnel (y1 y2 x : Int) (m : Map) :
    mapLE m (create_v_tunnel y1 y2 x m) := by
  intro a b
  unfold create_v_tunnel
  split
  · right; rfl
  · left; rfl

theorem mapLE_trans {m1 m2 m3 : Map} (h1 : mapLE m1 m2) (h2 : mapLE m2 m3) :
    mapLE m1 m3 := by
  intro x y
  rcases h2 x y with h | h
  · rw [h]; exact h1 x y
  · right; exact h

theorem tile_empty_clear : Tile.empty._blocked = false ∧ Tile.empty.block_sight = false :=
  ⟨rfl, rfl⟩

theorem pathClear_mono {m m' : Map} {a b : Rect} (h : mapLE m m')
    (hp : pathClear m a b) : pathClear m' a b := by
  obtain ⟨o, ho⟩ := hp
  refine ⟨o, fun c hc => ?_⟩
  rcases h c.1 c.2 with he | he
  · rw [he]; exact ho c hc
  · rw [he]; exact tile_empty_clear

theorem head?_append_left {α : Type} (l l' : List α) (h : l ≠ []) :
    (l ++ l').head? = l.head? := by
  cases l
  · exact absurd rfl h
  · rfl

theorem place_loop_spec (fuel : Nat) :
    ∀ (room : Rect) (map : Map) (objects : List Object) (rng : List Nat),
    ∃ ms rng', place_loop fuel room map objects rng = (objects ++ ms, rng') ∧
      ∀ m ∈ ms, m.alive = true := by
  induction fuel with
  | zero =>
      intro room map objects rng
      exact ⟨[], rng, by simp [place_loop], by simp⟩
  | succ n ih =>
      intro room map objects rng
      simp only [place_loop]
      set gx := gen_range (room._x1 + 1) room._x2 rng with hgx
      set gy := gen_range (room._y1 + 1) room._y2 gx.2 with hgy
      by_cases hb : is_blocked gx.1 gy.1 map objects = true
      · simp only [hb, if_true]
        exact ih room map objects gy.2
      · rw [Bool.not_eq_true] at hb
        simp only [hb, Bool.false_eq_true, if_false]
        set gt := rand_orc gy.2 with hgt
        set mon := make_monster gt.1 gx.1 gy.1 with hmon
        obtain ⟨ms, rng', heq, hal⟩ := ih room map (objects ++ [mon]) gt.2
        refine ⟨mon :: ms, rng', ?_, ?_⟩
        · rw [heq]
          simp
        · intro m hm
          rcases List.mem_cons.mp hm with rfl | hm'
          · rw [hmon]
            unfold make_monster
            split <;> rfl
          · exact hal m hm'

theorem place_objects_spec (room : Rect) (map : Map) (objects : List Object)
    (rng : List Nat) :
    ∃ ms rng', place_objects room map objects rng = (objects ++ ms, rng') ∧
      ∀ m ∈ ms, m.alive = true := by
  unfold place_objects
  exact place_loop_spec _ room map objects _

/-- Case analysis on one `make_map` loop iteration; `new` abbreviates the
sampled candidate. -/
theorem make_map_step_spec (s : GenState) :
    ((s.rooms.any fun r => (make_room_candidate s.rng).1.intersects_with r) = true ∧
      ∃ rng', make_map_step s = { s with rng := rng' }) ∨
    ((s.rooms.any fun r => (make_room_candidate s.rng).1.intersects_with r) = false ∧
      s.rooms = [] ∧
      ∃ (ms : List Object) (rng' : List Nat), (∀ m ∈ ms, m.alive = true) ∧
        make_map_step s =
          { map := create_room (make_room_candidate s.rng).1 s.map,
            rooms := [(make_room_candidate s.rng).1],
            objects := set_player_position (s.objects ++ ms)
              (make_room_candidate s.rng).1.center.1
              (make_room_candidate s.rng).1.center.2,
            rng := rng' }) ∨
    ((s.rooms.any fun r => (make_room_candidate s.rng).1.intersects_with r) = false ∧
      s.rooms ≠ [] ∧
      (∀ r ∈ s.rooms, (make_room_candidate s.rng).1.intersects_with r = false) ∧
      ∃ (ms : List Object) (b : Bool) (rng' : List Nat), (∀ m ∈ ms, m.alive = true) ∧
        make_map_step s =
          { map :=
              if b then
                create_v_tunnel (s.rooms.getLastD default).center.2
                  (make_room_candidate s.rng).1.center.2
                  (make_room_candidate s.rng).1.center.1
                  (create_h_tunnel (s.rooms.getLastD default).center.1
                    (make_room_candidate s.rng).1.center.1
                    (s.rooms.getLastD default).center.2
                    (create_room (make_room_candidate s.rng).1 s.map))
              else
                create_h_tunnel (s.rooms.getLastD default).center.1
                  (make_room_candidate s.rng).1.center.1
                  (make_room_candidate s.rng).1.center.2
                  (create_v_tunnel (s.rooms.getLastD default).center.2
                    (make_room_candidate s.rng).1.center.2
                    (s.rooms.getLastD default).center.1
                    (create_room (make_room_candidate s.rng).1 s.map)),
            rooms := s.rooms ++ [(make_room_candidate s.rng).1],
            objects := s.objects ++ ms,
            rng := rng' }) := by
  by_cases hf : (s.rooms.any fun r =>
      (make_room_candidate s.rng).1.intersects_with r) = true
  · left
    refine ⟨hf, (make_room_candidate s.rng).2, ?_⟩
    unfold make_map_step
    simp only [hf, if_true]
  · rw [Bool.not_eq_true] at hf
    obtain ⟨ms, rng', hpo, hal⟩ := place_objects_spec (make_room_candidate s.rng).1
      (create_room (make_room_candidate s.rng).1 s.map) s.objects
      (make_room_candidate s.rng).2
    by_cases he : s.rooms.isEmpty = true
    · right; left
      have hnil : s.rooms = [] := List.isEmpty_iff.mp he
      refine ⟨hf, hnil, ms, rng', hal, ?_⟩
      unfold make_map_step
      simp [hf, he, hpo, hnil]
    · right; right
      have hnil : s.rooms ≠ [] := by
        intro h
        rw [h] at he
        exact he rfl
      have hall : ∀ r ∈ s.rooms, (make_room_candidate s.rng).1.intersects_with r = false := by
        intro r hr
        by_contra h
        rw [Bool.not_eq_false] at h
        have htrue : (s.rooms.any fun r =>
            (make_room_candidate s.rng).1.intersects_with r) = true :=
          List.any_eq_true.mpr ⟨r, hr, h⟩
        rw [hf] at htrue
        exact Bool.false_ne_true htrue
      refine ⟨hf, hnil, hall, ms, (rand_bool rng').1, (rand_bool rng').2, hal, ?_⟩
      unfold make_map_step
      simp [hf, he, hpo]

/-- Invariants preserved by one loop iteration hold after the whole loop. -/
theorem make_map_loop_ind (P : GenState → Prop)
    (hstep : ∀ s, P s → P (make_map_step s)) :
    ∀ n s, P s → P (make_map_loop n s) := by
  intro n
  induction n with
  | zero => intro s h; simpa [make_map_loop] using h
  | succ n ih =>
      intro s h
      rw [make_map_loop]
      exact ih _ (hstep s h)

/-- C1: `move_by` computes the destination `(x+dx, y+dy)` from the entity's
current position; if `is_blocked` at the destination it is a no-op (the
object list, hence the entity's position, is unchanged and no error is
reported — the function is total with no error channel); otherwise it sets
exactly that entity's position to the destination. -/
theorem move_by_blocked_noop_else_exact_destination
    (id : Nat) (dx dy : Int) (map : Map) (objects : List Object)
    (hid : id < objects.length)
    (hx : 0 ≤ objects[id].x + dx ∧ objects[id].x + dx < MAP_WIDTH)
    (hy : 0 ≤ objects[id].y + dy ∧ objects[id].y + dy < MAP_HEIGHT) :
    (is_blocked (objects[id].x + dx) (objects[id].y + dy) map objects = true →
      move_by id dx dy map objects = objects) ∧
    (is_blocked (objects[id].x + dx) (objects[id].y + dy) map objects = false →
      move_by id dx dy map objects =
        objects.set id ((objects[id]).set_pos (objects[id].x + dx)
          (objects[id].y + dy)) ∧
      ((move_by id dx dy map objects)[id]?).map Object.pos =
        some (objects[id].x + dx, objects[id].y + dy)) := by
  have hget : objects[id]? = some objects[id] := List.getElem?_eq_getElem hid
  constructor
  · intro hb
    unfold move_by
    rw [hget]
    simp [hb]
  · intro hb
    have hmv : move_by id dx dy map objects =
        objects.set id ((objects[id]).set_pos (objects[id].x + dx)
          (objects[id].y + dy)) := by
      unfold move_by
      rw [hget]
      simp [hb]
    refine ⟨hmv, ?_⟩
    rw [hmv]
    have hlen : id < (objects.set id ((objects[id]).set_pos (objects[id].x + dx)
        (objects[id].y + dy))).length := by simpa using hid
    rw [List.getElem?_eq_getElem hlen]
    simp [Object.set_pos, Object.pos]

/-- Witness for C1: on an all-empty map a player at the origin stepping right
is not blocked and ends exactly at `(1, 0)`. -/
theorem move_by_witness :
    (is_blocked (wPlayer.x + 1) (wPlayer.y + 0) wEmptyMap [wPlayer] = true →
      move_by 0 1 0 wEmptyMap [wPlayer] = [wPlayer]) ∧
    (is_blocked (wPlayer.x + 1) (wPlayer.y + 0) wEmptyMap [wPlayer] = false →
      move_by 0 1 0 wEmptyMap [wPlayer] =
        [wPlayer].set 0 (wPlayer.set_pos (wPlayer.x + 1) (wPlayer.y + 0)) ∧
      ((move_by 0 1 0 wEmptyMap [wPlayer])[0]?).map Object.pos =
        some (wPlayer.x + 1, wPlayer.y + 0)) :=
  move_by_blocked_noop_else_exact_destination 0 1 0 wEmptyMap [wPlayer]
    (by decide) (by decide) (by decide)

/-- C2: for in-bounds coordinates, `is_blocked(x, y)` is true iff the map
tile at `(x, y)` is blocked or some object with `blocks = true` occupies
`(x, y)`; in particular it is true whenever the tile is blocked. -/
theorem is_blocked_tile_or_blocking_entity
    (x y : Int) (map : Map) (objects : List Object)
    (hx : 0 ≤ x ∧ x < MAP_WIDTH) (hy : 0 ≤ y ∧ y < MAP_HEIGHT) :
    (is_blocked x y map objects = true ↔
      (map x y)._blocked = true ∨
        ∃ o ∈ objects, o.blocks = true ∧ o.pos = (x, y)) ∧
    ((map x y)._blocked = true → is_blocked x y map objects = true) := by
  constructor
  · unfold is_blocked
    simp [List.any_eq_true]
  · intro h
    unfold is_blocked
    simp [h]

/-- Witness for C2: on the all-wall map the origin is blocked by the tile. -/
theorem is_blocked_witness :
    (is_blocked 0 0 wWallMap [wPlayer] = true ↔
      (wWallMap 0 0)._blocked = true ∨
        ∃ o ∈ [wPlayer], o.blocks = true ∧ o.pos = (0, 0)) ∧
    ((wWallMap 0 0)._blocked = true → is_blocked 0 0 wWallMap [wPlayer] = true) :=
  is_blocked_tile_or_blocking_entity 0 0 wWallMap [wPlayer] (by decide) (by decide)

/-- C3: `player_move_or_attack` first looks for an object occupying the
destination; if one is found it emits the placeholder attack message naming
that occupant and moves no entity (the object list is returned unchanged);
otherwise it delegates to `move_by` with the same step. -/
theorem player_move_or_attack_attacks_or_delegates
    (dx dy : Int) (game : Game) (objects : List Object)
    (h : 0 < objects.length) :
    (∀ target_id,
      objects.findIdx?
          (fun o => decide (o.pos = (objects[0].x + dx, objects[0].y + dy))) =
        some target_id →
      player_move_or_attack dx dy game objects =
        (objects,
          ["The " ++ (((objects[target_id]?).map Object.name).getD "") ++
            " laughs at your puny efforts to attack him!"])) ∧
    (objects.findIdx?
        (fun o => decide (o.pos = (objects[0].x + dx, objects[0].y + dy))) =
      none →
      player_move_or_attack dx dy game objects =
        (move_by PLAYER dx dy game.map objects, [])) := by
  have hget : objects[PLAYER]? = some objects[0] := by
    simpa [PLAYER] using List.getElem?_eq_getElem h
  constructor
  · intro target_id hf
    unfold player_move_or_attack
    rw [hget]
    simp only []
    rw [hf]
  · intro hf
    unfold player_move_or_attack
    rw [hget]
    simp only []
    rw [hf]

/-- Witness for C3: a lone player stepping right onto an empty cell finds no
occupant and the call delegates to `move_by`. -/
theorem player_move_or_attack_witness :
    (∀ target_id,
      [wPlayer].findIdx?
          (fun o => decide (o.pos = (([wPlayer] : List Object)[0].x + 1,
            ([wPlayer] : List Object)[0].y + 0))) = some target_id →
      player_move_or_attack 1 0 ⟨wEmptyMap⟩ [wPlayer] =
        ([wPlayer],
          ["The " ++ ((([wPlayer] : List Object)[target_id]?).map Object.name).getD "" ++
            " laughs at your puny efforts to attack him!"])) ∧
    ([wPlayer].findIdx?
        (fun o => decide (o.pos = (([wPlayer] : List Object)[0].x + 1,
          ([wPlayer] : List Object)[0].y + 0))) = none →
      player_move_or_attack 1 0 ⟨wEmptyMap⟩ [wPlayer] =
        (move_by PLAYER 1 0 wEmptyMap [wPlayer], [])) :=
  player_move_or_attack_attacks_or_delegates 1 0 ⟨wEmptyMap⟩ [wPlayer] (by decide)

theorem step_preserves_pairwise (s : GenState)
    (h : s.rooms.Pairwise (fun a b => a.intersects_with b = false)) :
    (make_map_step s).rooms.Pairwise (fun a b => a.intersects_with b = false) := by
  rcases make_map_step_spec s with ⟨_, rng', heq⟩ | ⟨_, hnil, ms, rng', _, heq⟩ |
    ⟨_, hnil, hall, ms, b, rng', _, heq⟩
  · rw [heq]
    exact h
  · rw [heq]
    simp
  · rw [heq]
    show (s.rooms ++ [(make_room_candidate s.rng).1]).Pairwise _
    rw [List.pairwise_append]
    refine ⟨h, by simp, ?_⟩
    intro a ha b hb
    rw [List.mem_singleton] at hb
    subst hb
    rw [intersects_with_comm]
    exact hall a ha

/-- C4: any two distinct rooms in the accepted list do not intersect under
`Rect::intersects_with`; and that test's inclusive bounds make rectangles
that merely share a boundary coordinate (here: `r1._x2 = r2._x1`, with
overlapping `y`-extents) count as overlapping, hence rejected. -/
theorem make_map_rooms_pairwise_disjoint :
    (∀ (draws : List Nat) (objects₀ : List Object),
      ∀ r1 ∈ (make_map draws objects₀).rooms,
        ∀ r2 ∈ (make_map draws objects₀).rooms,
          r1 ≠ r2 → r1.intersects_with r2 = false) ∧
    (∀ r1 r2 : Rect, r1._x1 ≤ r1._x2 → r2._x1 ≤ r2._x2 →
      r1._x2 = r2._x1 → r1._y1 ≤ r2._y2 → r2._y1 ≤ r1._y2 →
      r1.intersects_with r2 = true) := by
  constructor
  · intro draws objects₀
    have hpair : ((make_map draws objects₀).rooms).Pairwise
        (fun a b => a.intersects_with b = false) := by
      unfold make_map
      exact make_map_loop_ind
        (fun s => s.rooms.Pairwise (fun a b => a.intersects_with b = false))
        step_preserves_pairwise MAX_ROOMS.toNat
        { map := fun _ _ => Tile.wall, rooms := [], objects := objects₀, rng := draws }
        (by simp)
    have hsym : Symmetric (fun a b : Rect => a.intersects_with b = false) := by
      intro a b hab
      rw [intersects_with_comm]
      exact hab
    exact fun r1 h1 r2 h2 hne => hpair.forall hsym h1 h2 hne
  · intro r1 r2 h1 h2 h3 h4 h5
    rw [intersects_with_true_iff]
    omega

/-- Witness for C4: the two rooms accepted from the concrete draw list are
disjoint, and two concrete rectangles sharing the boundary `x = 5` are
reported as intersecting. -/
theorem make_map_rooms_pairwise_disjoint_witness :
    (Rect.new 0 0 6 6).intersects_with (Rect.new 20 0 6 6) = false ∧
    (⟨0, 5, 0, 5⟩ : Rect).intersects_with (⟨5, 9, 0, 5⟩ : Rect) = true :=
  ⟨make_map_rooms_pairwise_disjoint.1 wDraws initial_objects
      (Rect.new 0 0 6 6) (by decide) (Rect.new 20 0 6 6) (by decide) (by decide),
    make_map_rooms_pairwise_disjoint.2 ⟨0, 5, 0, 5⟩ ⟨5, 9, 0, 5⟩
      (by decide) (by decide) (by decide) (by decide) (by decide)⟩

theorem make_room_candidate_in_grid (rng : List Nat) :
    RectInGrid (make_room_candidate rng).1 := by
  simp only [make_room_candidate, Rect.new, RectInGrid]
  have hw := gen_range_bounds ROOM_MIN_SIZE (ROOM_MAX_SIZE + 1) rng (by decide)
  set gw := gen_range ROOM_MIN_SIZE (ROOM_MAX_SIZE + 1) rng with hgw
  have hh := gen_range_bounds ROOM_MIN_SIZE (ROOM_MAX_SIZE + 1) gw.2 (by decide)
  set gh := gen_range ROOM_MIN_SIZE (ROOM_MAX_SIZE + 1) gw.2 with hghd
  have hxpos : (0 : Int) < MAP_WIDTH - gw.1 := by
    simp only [ROOM_MIN_SIZE, ROOM_MAX_SIZE, MAP_WIDTH] at hw ⊢
    omega
  have hx := gen_range_bounds 0 (MAP_WIDTH - gw.1) gh.2 hxpos
  set gx := gen_range 0 (MAP_WIDTH - gw.1) gh.2 with hgxd
  have hypos : (0 : Int) < MAP_HEIGHT - gh.1 := by
    simp only [ROOM_MIN_SIZE, ROOM_MAX_SIZE, MAP_HEIGHT] at hh ⊢
    omega
  have hy := gen_range_bounds 0 (MAP_HEIGHT - gh.1) gx.2 hypos
  set gy := gen_range 0 (MAP_HEIGHT - gh.1) gx.2 with hgyd
  simp only [ROOM_MIN_SIZE, ROOM_MAX_SIZE, MAP_WIDTH, MAP_HEIGHT] at hw hh hx hy ⊢
  omega

theorem step_preserves_rooms_in_grid (s : GenState)
    (h : ∀ r ∈ s.rooms, RectInGrid r) :
    ∀ r ∈ (make_map_step s).rooms, RectInGrid r := by
  rcases make_map_step_spec s with ⟨_, rng', heq⟩ | ⟨_, hnil, ms, rng', _, heq⟩ |
    ⟨_, hnil, hall, ms, b, rng', _, heq⟩ <;> intro r hr <;> rw [heq] at hr
  · exact h r hr
  · simp only [List.mem_singleton] at hr
    subst hr
    exact make_room_candidate_in_grid _
  · simp only [List.mem_append, List.mem_singleton] at hr
    rcases hr with hr | hr
    · exact h r hr
    · subst hr
      exact make_room_candidate_in_grid _

/-- C8: every candidate sampled during generation has width and height in
`[ROOM_MIN_SIZE, ROOM_MAX_SIZE]`, and every accepted room's carved interior
(the cells `create_room` writes: `x1+1 ≤ X < x2`, `y1+1 ≤ Y < y2`) lies in
`[1, MAP_WIDTH-2] × [1, MAP_HEIGHT-2]`, one cell inside every border. -/
theorem room_candidates_sized_and_interiors_inside :
    (∀ rng : List Nat,
      ROOM_MIN_SIZE ≤ (make_room_candidate rng).1._x2 - (make_room_candidate rng).1._x1 ∧
      (make_room_candidate rng).1._x2 - (make_room_candidate rng).1._x1 ≤ ROOM_MAX_SIZE ∧
      ROOM_MIN_SIZE ≤ (make_room_candidate rng).1._y2 - (make_room_candidate rng).1._y1 ∧
      (make_room_candidate rng).1._y2 - (make_room_candidate rng).1._y1 ≤ ROOM_MAX_SIZE) ∧
    (∀ (draws : List Nat) (objects₀ : List Object),
      ∀ r ∈ (make_map draws objects₀).rooms, ∀ X Y : Int,
        r._x1 + 1 ≤ X → X < r._x2 → r._y1 + 1 ≤ Y → Y < r._y2 →
        1 ≤ X ∧ X ≤ MAP_WIDTH - 2 ∧ 1 ≤ Y ∧ Y ≤ MAP_HEIGHT - 2) := by
  constructor
  · intro rng
    have h := make_room_candidate_in_grid rng
    unfold RectInGrid at h
    simp only [ROOM_MIN_SIZE, ROOM_MAX_SIZE] at h ⊢
    omega
  · intro draws objects₀ r hr X Y h1 h2 h3 h4
    have hgrid : ∀ r ∈ (make_map draws objects₀).rooms, RectInGrid r := by
      unfold make_map
      exact make_map_loop_ind (fun s => ∀ r ∈ s.rooms, RectInGrid r)
        step_preserves_rooms_in_grid MAX_ROOMS.toNat
        { map := fun _ _ => Tile.wall, rooms := [], objects := objects₀, rng := draws }
        (by simp)
    have h := hgrid r hr
    unfold RectInGrid at h
    simp only [ROOM_MIN_SIZE, ROOM_MAX_SIZE, MAP_WIDTH, MAP_HEIGHT] at h ⊢
    omega

/-- Witness for C8: the first room accepted from the concrete draw list is
`Rect(0,0,6,6)` and its interior cell `(1, 1)` is inside the margins. -/
theorem room_candidates_sized_and_interiors_inside_witness :
    (ROOM_MIN_SIZE ≤ (make_room_candidate []).1._x2 - (make_room_candidate []).1._x1 ∧
      (make_room_candidate []).1._x2 - (make_room_candidate []).1._x1 ≤ ROOM_MAX_SIZE ∧
      ROOM_MIN_SIZE ≤ (make_room_candidate []).1._y2 - (make_room_candidate []).1._y1 ∧
      (make_room_candidate []).1._y2 - (make_room_candidate []).1._y1 ≤ ROOM_MAX_SIZE) ∧
    (1 ≤ (1 : Int) ∧ (1 : Int) ≤ MAP_WIDTH - 2 ∧ 1 ≤ (1 : Int) ∧ (1 : Int) ≤ MAP_HEIGHT - 2) :=
  ⟨room_candidates_sized_and_interiors_inside.1 [],
    room_candidates_sized_and_interiors_inside.2 wDraws initial_objects
      (Rect.new 0 0 6 6) (by decide) 1 1 (by decide) (by decide) (by decide) (by decide)⟩

theorem step_preserves_player_center (s : GenState)
    (h : s.objects ≠ [] ∧ ∀ r, s.rooms.head? = some r →
      ∃ p, s.objects.head? = some p ∧ p.pos = r.center) :
    (make_map_step s).objects ≠ [] ∧
      ∀ r, (make_map_step s).rooms.head? = some r →
        ∃ p, (make_map_step s).objects.head? = some p ∧ p.pos = r.center := by
  obtain ⟨hne, hctr⟩ := h
  obtain ⟨o, rest, hobj⟩ := List.exists_cons_of_ne_nil hne
  rcases make_map_step_spec s with ⟨_, rng', heq⟩ | ⟨_, hnil, ms, rng', _, heq⟩ |
    ⟨_, hnil, hall, ms, b, rng', _, heq⟩ <;> rw [heq]
  · exact ⟨hne, hctr⟩
  · rw [hobj]
    constructor
    · simp [set_player_position]
    · intro r hr
      simp only [List.head?_cons, Option.some.injEq] at hr
      subst hr
      refine ⟨o.set_pos (make_room_candidate s.rng).1.center.1
        (make_room_candidate s.rng).1.center.2, ?_, ?_⟩
      · simp [set_player_position]
      · simp [Object.set_pos, Object.pos]
  · rw [hobj]
    constructor
    · simp
    · intro r hr
      rw [head?_append_left _ _ hnil] at hr
      obtain ⟨p, hp, hppos⟩ := hctr r hr
      rw [hobj] at hp
      simp only [List.head?_cons, Option.some.injEq] at hp
      subst hp
      exact ⟨o, by simp, hppos⟩

/-- C6: if at least one room was accepted, the player entity (index 0) ends
`make_map` at the center of the first accepted room,
`((x1 + x2) / 2, (y1 + y2) / 2)` in integer division. -/
theorem make_map_player_at_first_room_center
    (draws : List Nat) (objects₀ : List Object) (h : objects₀ ≠ []) :
    ∀ r, (make_map draws objects₀).rooms.head? = some r →
      ∃ p, (make_map draws objects₀).objects.head? = some p ∧
        p.pos = ((r._x1 + r._x2) / 2, (r._y1 + r._y2) / 2) := by
  have hinv := make_map_loop_ind
    (fun s => s.objects ≠ [] ∧ ∀ r, s.rooms.head? = some r →
      ∃ p, s.objects.head? = some p ∧ p.pos = r.center)
    step_preserves_player_center MAX_ROOMS.toNat
    { map := fun _ _ => Tile.wall, rooms := [], objects := objects₀, rng := draws }
    ⟨h, by simp⟩
  intro r hr
  obtain ⟨p, hp, hpos⟩ := hinv.2 r hr
  exact ⟨p, hp, by rw [hpos]; rfl⟩

set_option maxRecDepth 40000 in
/-- Witness for C6: from the concrete draw list the first accepted room is
`Rect(0,0,6,6)` and the player ends at its center `(3, 3)`. -/
theorem make_map_player_at_first_room_center_witness :
    ∃ p, (make_map wDraws initial_objects).objects.head? = some p ∧
      p.pos = (((Rect.new 0 0 6 6)._x1 + (Rect.new 0 0 6 6)._x2) / 2,
        ((Rect.new 0 0 6 6)._y1 + (Rect.new 0 0 6 6)._y2) / 2) :=
  make_map_player_at_first_room_center wDraws initial_objects
    (by simp [initial_objects]) (Rect.new 0 0 6 6) (by decide)

theorem step_preserves_player_dead (s : GenState)
    (h : s.objects.head?.map (fun o => o.alive) = some false ∧
      ∀ o ∈ s.objects.drop 1, o.alive = true) :
    (make_map_step s).objects.head?.map (fun o => o.alive) = some false ∧
      ∀ o ∈ (make_map_step s).objects.drop 1, o.alive = true := by
  obtain ⟨hhead, htail⟩ := h
  have hne : s.objects ≠ [] := by
    intro hnil
    rw [hnil] at hhead
    simp at hhead
  obtain ⟨o, rest, hobj⟩ := List.exists_cons_of_ne_nil hne
  rw [hobj] at hhead htail
  simp only [List.head?_cons, Option.map_some', Option.some.injEq] at hhead
  simp only [List.drop_succ_cons, List.drop_zero] at htail
  rcases make_map_step_spec s with ⟨_, rng', heq⟩ | ⟨_, hnil, ms, rng', hms, heq⟩ |
    ⟨_, hnil2, hall, ms, b, rng', hms, heq⟩ <;> rw [heq] <;> rw [hobj]
  · constructor
    · simp [hhead]
    · simpa using htail
  · constructor
    · simp [set_player_position, Object.set_pos, hhead]
    · intro m hm
      simp only [List.cons_append, set_player_position, List.drop_succ_cons,
        List.drop_zero] at hm
      rcases List.mem_append.mp hm with hm | hm
      · exact htail m hm
      · exact hms m hm
  · constructor
    · simp [hhead]
    · intro m hm
      simp only [List.cons_append, List.drop_succ_cons, List.drop_zero] at hm
      rcases List.mem_append.mp hm with hm | hm
      · exact htail m hm
      · exact hms m hm

/-- C10: `Object::new` always returns an entity with `alive = false`; the
player is created that way in `main` and nothing in map generation sets it
back, so after generation the player's `alive` is `false` — while every
monster spawned by `place_objects` has `alive = true` (set right after
construction). -/
theorem object_new_dead_player_stays_dead :
    (∀ (x y : Int) (char : Char) (name : String) (color : Color) (blocks : Bool),
      (Object.new x y char name color blocks).alive = false) ∧
    (∀ draws : List Nat,
      ((make_map draws initial_objects).objects.head?.map (fun o => o.alive) =
        some false) ∧
      ∀ o ∈ (make_map draws initial_objects).objects.drop 1, o.alive = true) := by
  constructor
  · intro x y char name color blocks
    rfl
  · intro draws
    exact make_map_loop_ind
      (fun s => s.objects.head?.map (fun o => o.alive) = some false ∧
        ∀ o ∈ s.objects.drop 1, o.alive = true)
      step_preserves_player_dead MAX_ROOMS.toNat
      { map := fun _ _ => Tile.wall, rooms := [], objects := initial_objects,
        rng := draws }
      ⟨by simp [initial_objects, player, Object.new], by simp [initial_objects]⟩

set_option maxRecDepth 40000 in
/-- Witness for C10: with the concrete draw list spawning one orc, the
player is still not alive after generation and the spawned orc is. -/
theorem object_new_dead_player_stays_dead_witness :
    (Object.new 0 0 '@' "player" WHITE true).alive = false ∧
    ((make_map wDrawsOrc initial_objects).objects.head?.map (fun o => o.alive) =
      some false) ∧
    (make_monster true 1 1).alive = true :=
  ⟨object_new_dead_player_stays_dead.1 0 0 '@' "player" WHITE true,
    (object_new_dead_player_stays_dead.2 wDrawsOrc).1,
    (object_new_dead_player_stays_dead.2 wDrawsOrc).2 (make_monster true 1 1)
      (by decide)⟩

theorem tunnelsOk_mono {m m' : Map} (hle : mapLE m m') {rooms : List Rect}
    (h : tunnelsOk m rooms) : tunnelsOk m' rooms :=
  fun i hi => pathClear_mono hle (h i hi)

theorem tunnelsOk_append {m : Map} {rooms : List Rect} {new : Rect}
    (h : tunnelsOk m rooms)
    (hlast : rooms ≠ [] → pathClear m (rooms.getLastD default) new) :
    tunnelsOk m (rooms ++ [new]) := by
  intro i hi
  have hlen : (rooms ++ [new]).length = rooms.length + 1 := by simp
  by_cases hlt : i + 1 < rooms.length
  · have e1 : (rooms ++ [new]).get ⟨i, Nat.lt_of_succ_lt hi⟩ =
        rooms.get ⟨i, Nat.lt_of_succ_lt hlt⟩ := by
      simp only [List.get_eq_getElem]
      exact List.getElem_append_left (Nat.lt_of_succ_lt hlt)
    have e2 : (rooms ++ [new]).get ⟨i + 1, hi⟩ = rooms.get ⟨i + 1, hlt⟩ := by
      simp only [List.get_eq_getElem]
      exact List.getElem_append_left hlt
    rw [e1, e2]
    exact h i hlt
  · have hieq : i + 1 = rooms.length := by omega
    have hne : rooms ≠ [] := by
      intro h0
      rw [h0] at hieq
      simp at hieq
    have e2 : (rooms ++ [new]).get ⟨i + 1, hi⟩ = new := by
      simp only [List.get_eq_getElem]
      exact List.getElem_concat_length rooms new (i + 1) hieq _
    have e1 : (rooms ++ [new]).get ⟨i, Nat.lt_of_succ_lt hi⟩ =
        rooms.getLastD default := by
      simp only [List.get_eq_getElem]
      rw [List.getElem_append_left (show i < rooms.length by omega)]
      rw [List.getLastD_eq_getLast?, List.getLast?_eq_getLast rooms hne]
      simp only [Option.getD_some]
      rw [List.getLast_eq_getElem]
      congr 1
      omega
    rw [e1, e2]
    exact hlast hne

theorem step_preserves_tunnelsOk (s : GenState) (h : tunnelsOk s.map s.rooms) :
    tunnelsOk (make_map_step s).map (make_map_step s).rooms := by
  rcases make_map_step_spec s with ⟨_, rng', heq⟩ | ⟨_, hnil, ms, rng', _, heq⟩ |
    ⟨_, hnil, hall, ms, b, rng', _, heq⟩ <;> rw [heq]
  · exact h
  · intro i hi
    simp only [List.length_singleton] at hi
    exact absurd hi (by omega)
  · dsimp only
    cases b
    · simp only [Bool.false_eq_true, if_false]
      have hle : mapLE s.map
          (create_h_tunnel (s.rooms.getLastD default).center.1
            (make_room_candidate s.rng).1.center.1
            (make_room_candidate s.rng).1.center.2
            (create_v_tunnel (s.rooms.getLastD default).center.2
              (make_room_candidate s.rng).1.center.2
              (s.rooms.getLastD default).center.1
              (create_room (make_room_candidate s.rng).1 s.map))) :=
        mapLE_trans (mapLE_create_room _ _)
          (mapLE_trans (mapLE_create_v_tunnel _ _ _ _) (mapLE_create_h_tunnel _ _ _ _))
      refine tunnelsOk_append (tunnelsOk_mono hle h) ?_
      intro hne
      refine ⟨false, ?_⟩
      intro c hc
      simp only [LPathCells, Bool.false_eq_true, if_false] at hc
      rcases List.mem_append.mp hc with hc | hc
      · have he := create_v_tunnel_sets
          (create_room (make_room_candidate s.rng).1 s.map) hc
        rcases mapLE_create_h_tunnel (s.rooms.getLastD default).center.1
            (make_room_candidate s.rng).1.center.1
            (make_room_candidate s.rng).1.center.2
            (create_v_tunnel (s.rooms.getLastD default).center.2
              (make_room_candidate s.rng).1.center.2
              (s.rooms.getLastD default).center.1
              (create_room (make_room_candidate s.rng).1 s.map)) c.1 c.2 with h2 | h2
        · rw [h2, he]
          exact tile_empty_clear
        · rw [h2]
          exact tile_empty_clear
      · have he := create_h_tunnel_sets
          (create_v_tunnel (s.rooms.getLastD default).center.2
            (make_room_candidate s.rng).1.center.2
            (s.rooms.getLastD default).center.1
            (create_room (make_room_candidate s.rng).1 s.map)) hc
        rw [he]
        exact tile_empty_clear
    · simp only [if_true]
      have hle : mapLE s.map
          (create_v_tunnel (s.rooms.getLastD default).center.2
            (make_room_candidate s.rng).1.center.2
            (make_room_candidate s.rng).1.center.1
            (create_h_tunnel (s.rooms.getLastD default).center.1
              (make_room_candidate s.rng).1.center.1
              (s.rooms.getLastD default).center.2
              (create_room (make_room_candidate s.rng).1 s.map))) :=
        mapLE_trans (mapLE_create_room _ _)
          (mapLE_trans (mapLE_create_h_tunnel _ _ _ _) (mapLE_create_v_tunnel _ _ _ _))
      refine tunnelsOk_append (tunnelsOk_mono hle h) ?_
      intro hne
      refine ⟨true, ?_⟩
      intro c hc
      simp only [LPathCells, if_true] at hc
      rcases List.mem_append.mp hc with hc | hc
      · have he := create_h_tunnel_sets
          (create_room (make_room_candidate s.rng).1 s.map) hc
        rcases mapLE_create_v_tunnel (s.rooms.getLastD default).center.2
            (make_room_candidate s.rng).1.center.2
            (make_room_candidate s.rng).1.center.1
            (create_h_tunnel (s.rooms.getLastD default).center.1
              (make_room_candidate s.rng).1.center.1
              (s.rooms.getLastD default).center.2
              (create_room (make_room_candidate s.rng).1 s.map)) c.1 c.2 with h2 | h2
        · rw [h2, he]
          exact tile_empty_clear
        · rw [h2]
          exact tile_empty_clear
      · have he := create_v_tunnel_sets
          (create_h_tunnel (s.rooms.getLastD default).center.1
            (make_room_candidate s.rng).1.center.1
            (s.rooms.getLastD default).center.2
            (create_room (make_room_candidate s.rng).1 s.map)) hc
        rw [he]
        exact tile_empty_clear

/-- C7: after `make_map`, every consecutive pair of accepted rooms is joined
by the carved L-shaped tunnel: for one of the two orientations, every cell
of the one-cell-wide horizontal and vertical segments between the two room
centers is unblocked and non-sight-blocking in the final map, whatever the
tile held before; and both centers lie on the L-path (both endpoints of
each segment are included), so the carved cells form a connected path
between the centers. -/
theorem make_map_tunnels_connect_consecutive_rooms :
    (∀ (draws : List Nat) (objects₀ : List Object),
      tunnelsOk (make_map draws objects₀).map (make_map draws objects₀).rooms) ∧
    (∀ (o : Bool) (p q : Int × Int), p ∈ LPathCells o p q ∧ q ∈ LPathCells o p q) := by
  constructor
  · intro draws objects₀
    have hloop : ∀ (n : Nat) (s : GenState), tunnelsOk s.map s.rooms →
        tunnelsOk (make_map_loop n s).map (make_map_loop n s).rooms := by
      intro n
      induction n with
      | zero =>
          intro s h
          simpa [make_map_loop] using h
      | succ n ih =>
          intro s h
          rw [make_map_loop]
          exact ih _ (step_preserves_tunnelsOk s h)
    unfold make_map
    refine hloop MAX_ROOMS.toNat _ ?_
    intro i hi
    simp at hi
  · intro o p q
    cases o
    · simp only [LPathCells, Bool.false_eq_true, if_false]
      constructor
      · refine List.mem_append.mpr (Or.inl ?_)
        rw [mem_vCells]
        exact ⟨by omega, by omega, rfl⟩
      · refine List.mem_append.mpr (Or.inr ?_)
        rw [mem_hCells]
        exact ⟨by omega, by omega, rfl⟩
    · simp only [LPathCells, if_true]
      constructor
      · refine List.mem_append.mpr (Or.inl ?_)
        rw [mem_hCells]
        exact ⟨by omega, by omega, rfl⟩
      · refine List.mem_append.mpr (Or.inr ?_)
        rw [mem_vCells]
        exact ⟨by omega, by omega, rfl⟩

set_option maxRecDepth 40000 in
/-- Witness for C7: the tunnel carved between the two rooms accepted from
the concrete draw list is clear, and the center `(3, 3)` lies on the
horizontal-first L-path towards `(23, 3)`. -/
theorem make_map_tunnels_connect_consecutive_rooms_witness :
    pathClear (make_map wDraws initial_objects).map
      ((make_map wDraws initial_objects).rooms.get ⟨0, by decide⟩)
      ((make_map wDraws initial_objects).rooms.get ⟨1, by decide⟩) ∧
    ((3 : Int), (3 : Int)) ∈ LPathCells true (3, 3) (23, 3) :=
  ⟨make_map_tunnels_connect_consecutive_rooms.1 wDraws initial_objects 0 (by decide),
    (make_map_tunnels_connect_consecutive_rooms.2 true (3, 3) (23, 3)).1⟩

/-- C5: the explored flag is monotone — neither a single `render_all` tile
pass nor any whole sequence of passes ever resets it — and any in-bounds
cell a pass reports visible is explored from that pass on, so the explored
mask contains every cell ever visible. -/
theorem explored_monotone_and_superset_of_visible :
    (∀ (vis : Int → Int → Bool) (m : Map) (x y : Int),
      (m x y)._explored = true → (explore_tiles vis m x y)._explored = true) ∧
    (∀ (vis : Int → Int → Bool) (m : Map) (x y : Int),
      (0 ≤ x ∧ x < MAP_WIDTH ∧ 0 ≤ y ∧ y < MAP_HEIGHT) → vis x y = true →
      (explore_tiles vis m x y)._explored = true) ∧
    (∀ (passes : List (Int → Int → Bool)) (m : Map) (x y : Int),
      (m x y)._explored = true → (explore_session passes m x y)._explored = true) ∧
    (∀ (pre post : List (Int → Int → Bool)) (v : Int → Int → Bool) (m : Map)
      (x y : Int),
      (0 ≤ x ∧ x < MAP_WIDTH ∧ 0 ≤ y ∧ y < MAP_HEIGHT) → v x y = true →
      (explore_session (pre ++ v :: post) m x y)._explored = true) := by
  have h1 : ∀ (vis : Int → Int → Bool) (m : Map) (x y : Int),
      (m x y)._explored = true → (explore_tiles vis m x y)._explored = true := by
    intro vis m x y h
    unfold explore_tiles
    split
    · rfl
    · exact h
  have h2 : ∀ (vis : Int → Int → Bool) (m : Map) (x y : Int),
      (0 ≤ x ∧ x < MAP_WIDTH ∧ 0 ≤ y ∧ y < MAP_HEIGHT) → vis x y = true →
      (explore_tiles vis m x y)._explored = true := by
    intro vis m x y hb hv
    unfold explore_tiles
    rw [if_pos ⟨hb, hv⟩]
  have h3 : ∀ (passes : List (Int → Int → Bool)) (m : Map) (x y : Int),
      (m x y)._explored = true → (explore_session passes m x y)._explored = true := by
    intro passes
    induction passes with
    | nil =>
        intro m x y h
        simpa [explore_session] using h
    | cons v rest ih =>
        intro m x y h
        show (explore_session (v :: rest) m x y)._explored = true
        unfold explore_session
        rw [List.foldl_cons]
        exact ih (explore_tiles v m) x y (h1 v m x y h)
  refine ⟨h1, h2, h3, ?_⟩
  intro pre post v m x y hb hv
  have hsplit : explore_session (pre ++ v :: post) m =
      explore_session post (explore_tiles v (explore_session pre m)) := by
    unfold explore_session
    rw [List.foldl_append, List.foldl_cons]
  rw [hsplit]
  exact h3 post _ x y (h2 v _ x y hb hv)

/-- Witness for C5: with an all-visible pass, an already-explored cell stays
explored, a wall cell becomes explored, and both facts persist over a
session. -/
theorem explored_monotone_and_superset_of_visible_witness :
    (explore_tiles visAll wSeenMap 0 0)._explored = true ∧
    (explore_tiles visAll wWallMap 0 0)._explored = true ∧
    (explore_session [visAll] wSeenMap 0 0)._explored = true ∧
    (explore_session ([] ++ visAll :: []) wWallMap 0 0)._explored = true :=
  ⟨explored_monotone_and_superset_of_visible.1 visAll wSeenMap 0 0 (by decide),
    explored_monotone_and_superset_of_visible.2.1 visAll wWallMap 0 0
      (by decide) (by decide),
    explored_monotone_and_superset_of_visible.2.2.1 [visAll] wSeenMap 0 0 (by decide),
    explored_monotone_and_superset_of_visible.2.2.2 [] [] visAll wWallMap 0 0
      (by decide) (by decide)⟩

set_option maxRecDepth 40000 in
/-- C9: generation depends on its random source only through the values
drawn: with the draw stream made explicit (as the spec's determinism
requirement demands), a fixed draw list reproduces an identical accepted
room list and entity layout.  (The Rust code itself draws from the global
`rand::thread_rng()` / `rand::random()`, which expose no seed or injection
point — see the accompanying analysis.) -/
theorem make_map_fixed_draws_reproduce_layout :
    (make_map wDraws initial_objects).rooms =
      [⟨0, 6, 0, 6⟩, ⟨20, 26, 0, 6⟩] ∧
    (make_map wDraws initial_objects).objects.map Object.pos = [(3, 3)] := by
  constructor
  · decide
  · decide

end RustGame
